import Mathlib

/-!
Verification of the DrGame generation-response pipeline and the live game
sandbox/config-editor, shallowly embedded from `src/services/geminiService.ts`
and `src/components/GameDisplay.tsx`.  Strings are modelled as `List Char`
(JavaScript strings over the characters actually used are ASCII here).
-/

set_option maxRecDepth 8000

namespace DrGame

/-- JavaScript strings are modelled as lists of characters. -/
abbrev Str := List Char

/-- Shorthand turning a Lean string literal into the model's string type. -/
def lit (s : String) : Str := s.data

/-- The whitespace class of a JavaScript regular expression. -/
def isJsSpace (c : Char) : Bool :=
  c = ' ' || c = '\t' || c = '\n' || c = '\r' || c = '\x0b' || c = '\x0c'

/-- Lower-casing a whole string, as `String.prototype.toLowerCase` (ASCII). -/
def toLower (s : Str) : Str := s.map Char.toLower

/-- `String.prototype.trim`: strip whitespace from both ends. -/
def trim (s : Str) : Str :=
  ((s.dropWhile isJsSpace).reverse.dropWhile isJsSpace).reverse

/-- Substring membership, as `String.prototype.includes`. -/
def strContains (s pat : Str) : Bool :=
  match s with
  | [] => pat.isEmpty
  | _ :: cs => pat.isPrefixOf s || strContains cs pat

/-- Index of the first occurrence of `pat` in `s`, as `String.prototype.search`
on a literal pattern (`none` for JavaScript's `-1`). -/
def findSub (pat : Str) : Str → Option Nat
  | [] => if pat.isEmpty then some 0 else none
  | s@(_ :: cs) =>
    if pat.isPrefixOf s then some 0 else (findSub pat cs).map (· + 1)

/-- Case-insensitive search, as `search` with the `i` flag. -/
def searchCI (pat s : Str) : Option Nat := findSub (toLower pat) (toLower s)

/-- Left-to-right scan underlying `removeAll`; the fuel argument (always at
least the string length at the call sites) makes the recursion structural:
each step consumes at least one character. -/
def removeAllAux (pat : Str) : Nat → Str → Str
  | _, [] => []
  | 0, s => s
  | fuel + 1, c :: cs =>
    if pat.isPrefixOf (c :: cs) then removeAllAux pat fuel (cs.drop (pat.length - 1))
    else c :: removeAllAux pat fuel cs

/-- Global replacement of a literal pattern by the empty string, as
`replace(/pat/g, '')`: scan left to right, skip past each match. -/
def removeAll (pat s : Str) : Str := removeAllAux pat s.length s

/-- Case-insensitive variant of the scan underlying `removeAllCI`. -/
def removeAllCIAux (pat : Str) : Nat → Str → Str
  | _, [] => []
  | 0, s => s
  | fuel + 1, c :: cs =>
    if (toLower pat).isPrefixOf (toLower (c :: cs)) then
      removeAllCIAux pat fuel (cs.drop (pat.length - 1))
    else c :: removeAllCIAux pat fuel cs

/-- Case-insensitive global removal, as `replace(/pat/gi, '')`. -/
def removeAllCI (pat s : Str) : Str := removeAllCIAux pat s.length s

/-- `String.prototype.substring`: swaps its arguments when given in the wrong
order and clamps them to the string length. -/
def jsSubstring (s : Str) (a b : Nat) : Str :=
  (s.take (max a b)).drop (min a b)


/-! ### Data model (`src/types` and `geminiService.ts`) -/

/-- A control descriptor from the controls JSON payload. -/
structure GameControl where
  icon : Str
  label : Str
  keyName : Option Str
deriving DecidableEq, Repr

/-- The result of a successful generation: document source plus controls. -/
structure GameGenerationResponse where
  html : Str
  controls : List GameControl
deriving DecidableEq, Repr

/-- The only failure the parsing stage itself signals (`INVALID_FORMAT`). -/
inductive PErr where
  | invalidFormat
deriving DecidableEq, Repr

deriving instance DecidableEq for Except

/-- `JSON.parse` applied to the controls payload is a platform builtin; it is
modelled as an opaque function returning the parsed `GameControl` array, or
`none` when parsing as a JSON array fails. -/
abbrev Oracle := Str → Option (List GameControl)

/-! ### Delimiter extraction (`geminiService.ts` lines 87-104)
The delimiters are matched by the regexes of the form
`<<<\s*HTML_START\s*>>>`, tolerating whitespace inside the marker. -/

/-- Length of a delimiter match anchored at the start of `s`, if any:
triple angle open, optional whitespace, the tag, optional whitespace,
triple angle close. -/
def delimLen (tag : Str) (s : Str) : Option Nat :=
  if (lit "<<<").isPrefixOf s then
    let r1 := s.drop 3
    let w1 := (r1.takeWhile isJsSpace).length
    let r2 := r1.drop w1
    if tag.isPrefixOf r2 then
      let r3 := r2.drop tag.length
      let w2 := (r3.takeWhile isJsSpace).length
      let r4 := r3.drop w2
      if (lit ">>>").isPrefixOf r4 then some (3 + w1 + tag.length + w2 + 3)
      else none
    else none
  else none

/-- First match of the delimiter regex in `s`: start index and match length,
as `String.prototype.match` on the delimiter regexes. -/
def findDelim (tag : Str) : Str → Option (Nat × Nat)
  | [] => none
  | s@(_ :: cs) =>
    match delimLen tag s with
    | some l => some (0, l)
    | none => (findDelim tag cs).map fun p => (p.1 + 1, p.2)

/-- Layer 1: explicit delimiter extraction of the document.  If the end tag is
missing, or occurs before the content start (truncation), take everything
after the start marker (`geminiService.ts` lines 93-104). -/
def extractHtmlDelim (text : Str) : Str :=
  match findDelim (lit "HTML_START") text with
  | none => []
  | some (i, l) =>
    let startIndex := i + l
    match findDelim (lit "HTML_END") text with
    | some (e, _) =>
      if startIndex < e then trim (jsSubstring text startIndex e)
      else trim (text.drop startIndex)
    | none => trim (text.drop startIndex)

/-- Markdown-fence stripping applied before the structural fallback
(`geminiService.ts` line 109). -/
def cleanOf (text : Str) : Str :=
  removeAll (lit "```") (removeAllCI (lit "```html") text)

/-- Shared tail of the structural fallback: cut from the found start to the
close-of-document marker, or to the end of string when it is missing
(`geminiService.ts` lines 115-126). -/
def structuralFrom (clean : Str) (i : Nat) : Str :=
  match searchCI (lit "</html>") clean with
  | some e => jsSubstring clean i (e + 7)
  | none => clean.drop i

/-- Layer 2: structural fallback searching for a document-type declaration or
a root open marker, case-insensitively (`geminiService.ts` lines 107-127). -/
def extractHtmlStructural (text : Str) : Str :=
  match searchCI (lit "<!DOCTYPE html>") (cleanOf text) with
  | some i => structuralFrom (cleanOf text) i
  | none =>
    match searchCI (lit "<html") (cleanOf text) with
    | some i => structuralFrom (cleanOf text) i
    | none => []

/-- The document text reaching the final check: layer 1, falling back to
layer 2 when layer 1 produced the empty string. -/
def extractHtml (text : Str) : Str :=
  if extractHtmlDelim text = [] then extractHtmlStructural text
  else extractHtmlDelim text

/-! ### Controls extraction (`geminiService.ts` lines 129-151) -/

/-- Tail of the markdown-JSON fallback regex: a closing brace, optional
whitespace, a closing bracket; returns the consumed length. -/
def closeBraceBracketLen (s : Str) : Option Nat :=
  match s with
  | '}' :: r =>
    let w := (r.takeWhile isJsSpace).length
    match r.drop w with
    | ']' :: _ => some (1 + w + 1)
    | _ => none
  | _ => none

/-- Greedy dot-all middle of the fallback regex: the engine backtracks from
the end, so the largest split into middle and closing tail wins. -/
def greedyClose (r : Str) : Option (Nat × Nat) :=
  ((List.range (r.length + 1)).filterMap fun j =>
    (closeBraceBracketLen (r.drop j)).map fun len => (j, len)).getLast?

/-- Match of the controls fallback regex (open bracket, whitespace, open
brace, greedy dot-all, close brace, whitespace, close bracket) anchored at the
start of `s`, returning the matched text. -/
def jsonArrAt (s : Str) : Option Str :=
  match s with
  | '[' :: r1 =>
    let w1 := (r1.takeWhile isJsSpace).length
    match r1.drop w1 with
    | '{' :: r3 =>
      match greedyClose r3 with
      | some (j, len) => some (s.take (1 + w1 + 1 + j + len))
      | none => none
    | _ => none
  | _ => none

/-- First match of the controls fallback regex anywhere in the text. -/
def findJsonArray : Str → Option Str
  | [] => none
  | s@(_ :: cs) => jsonArrAt s <|> findJsonArray cs

/-- The single default descriptor substituted when no controls were parsed
(`geminiService.ts` line 150). -/
def defaultControl : GameControl := ⟨lit "other", lit "Play", some (lit "Game")⟩

/-- Controls before the default substitution: delimiter extraction when both
JSON markers are present, otherwise the markdown-fallback regex; a parse
failure leaves the empty list (`geminiService.ts` lines 130-147). -/
def extractControlsRaw (oracle : Oracle) (text : Str) : List GameControl :=
  match findDelim (lit "JSON_START") text, findDelim (lit "JSON_END") text with
  | some (i, l), some (e, _) =>
    (oracle (trim (jsSubstring text (i + l) e))).getD []
  | _, _ =>
    match findJsonArray text with
    | some m => (oracle (trim m)).getD []
    | none => []

/-- Controls as returned: the default descriptor replaces an empty result
(`geminiService.ts` lines 149-151). -/
def extractControls (oracle : Oracle) (text : Str) : List GameControl :=
  if extractControlsRaw oracle text = [] then [defaultControl]
  else extractControlsRaw oracle text

/-! ### Final check and repair (`geminiService.ts` lines 153-183) -/

/-- Head of the synthetic document shell of the deep fallback
(`geminiService.ts` lines 157-164), byte for byte. -/
def wrapPre : Str := lit "<!DOCTYPE html>\n            <html>\n            <head>\n              <meta charset=\"UTF-8\">\n              <meta name=\"viewport\" content=\"width=device-width, initial-scale=1.0\">\n              <style>body \x7b margin: 0; background: #000; color: #fff; overflow: hidden; \x7d</style>\n            </head>\n            <body>\n              "

/-- Tail of the synthetic document shell (`geminiService.ts` lines 166-167). -/
def wrapPost : Str := lit "\n            </body>\n            </html>"

/-- Deep fallback: wrap the fence-stripped raw text in a minimal document
shell (`geminiService.ts` lines 156-167). -/
def syntheticWrap (text : Str) : Str :=
  wrapPre ++ removeAll (lit "```") text ++ wrapPost

/-- First repair step: prepend a document-type declaration when the document
lacks one, checked case-insensitively (`geminiService.ts` lines 174-176). -/
def ensureDoctype (h : Str) : Str :=
  if strContains (toLower h) (lit "<!doctype html>") then h
  else lit "<!DOCTYPE html>\n" ++ h

/-- Repair pass: prepend a document-type declaration and append the closing
sequence when missing, both checked case-insensitively
(`geminiService.ts` lines 172-181). -/
def repairHtml (h : Str) : Str :=
  if strContains (toLower (ensureDoctype h)) (lit "</html>") then ensureDoctype h
  else ensureDoctype h ++ lit "\n</body>\n</html>"

/-- The whole parsing stage applied to one raw model output: extraction
layers, controls extraction, final check and repair
(`geminiService.ts` lines 83-183). -/
def parseGameText (oracle : Oracle) (text : Str) :
    Except PErr GameGenerationResponse :=
  if (extractHtml text).length < 50 then
    if strContains text (lit "<canvas") || strContains text (lit "<script") then
      .ok ⟨syntheticWrap text, extractControls oracle text⟩
    else .error .invalidFormat
  else .ok ⟨repairHtml (extractHtml text), extractControls oracle text⟩

/-- An oracle on which every controls payload fails to parse. -/
def oracleNone : Oracle := fun _ => none

/-! ### GenerationOrchestrator (`geminiService.ts` lines 14-201) -/

/-- What one call to the external generator produces: either a thrown
transport error, or a response carrying its text and whether the termination
reason was the safety refusal. -/
inductive GenOutcome where
  | transport (msg : Str)
  | response (text : Str) (safetyBlocked : Bool)
deriving DecidableEq, Repr

/-- The error taxonomy of `generateGameCode`. -/
inductive GenError where
  | apiKeyMissing
  | safetyError
  | emptyResponse
  | invalidFormat
  | transport (msg : Str)
  | failedAfterRetries
deriving DecidableEq, Repr

/-- One attempt body: the safety-refusal check, the empty-text check, then the
parsing stage (`geminiService.ts` lines 52-183); a transport failure of the
external call surfaces as the thrown error. -/
def attemptOutcome (oracle : Oracle) :
    GenOutcome → Except GenError GameGenerationResponse
  | .transport m => .error (.transport m)
  | .response text safetyBlocked =>
    if safetyBlocked then .error .safetyError
    else if text = [] then .error .emptyResponse
    else
      match parseGameText oracle text with
      | .ok r => .ok r
      | .error .invalidFormat => .error .invalidFormat

/-- Observable outcome of a run of the orchestrator: its result, how many
calls reached the external generator, and the backoff delays awaited. -/
structure GenRun where
  result : Except GenError GameGenerationResponse
  calls : Nat
  sleeps : List Nat
deriving DecidableEq, Repr

/-- The retry loop (`geminiService.ts` lines 49-200): `attempt` is the
zero-based index of the current attempt, `remaining` the number of attempts
left (3 at the top), `lastErr` the last failure.  A safety refusal or missing
credential is rethrown immediately; any other failure sleeps
`2000 * (attempt + 1)` milliseconds while `attempt < 2` and retries; an
exhausted loop throws the last error. -/
def genFrom (oracle : Oracle) (gen : Nat → GenOutcome) :
    Nat → Nat → Option GenError → GenRun
  | _, 0, lastErr => ⟨.error (lastErr.getD .failedAfterRetries), 0, []⟩
  | attempt, remaining + 1, _ =>
    match attemptOutcome oracle (gen attempt) with
    | .ok r => ⟨.ok r, 1, []⟩
    | .error e =>
      if e = .safetyError ∨ e = .apiKeyMissing then ⟨.error e, 1, []⟩
      else
        let rest := genFrom oracle gen (attempt + 1) remaining (some e)
        if attempt < 2 then
          ⟨rest.result, rest.calls + 1, 2000 * (attempt + 1) :: rest.sleeps⟩
        else ⟨rest.result, rest.calls + 1, rest.sleeps⟩

/-- `generateGameCode`: the missing-credential check followed by the retry
loop with three attempts (`geminiService.ts` lines 14-201). -/
def generateGameCode (oracle : Oracle) (hasApiKey : Bool)
    (gen : Nat → GenOutcome) : GenRun :=
  if hasApiKey then genFrom oracle gen 0 3 none else ⟨.error .apiKeyMissing, 0, []⟩

/-- Whether an error lets the retry loop continue. -/
def retryable (e : GenError) : Prop := e ≠ .safetyError ∧ e ≠ .apiKeyMissing

/-! ### ConfigExtractor and ConfigEditorBridge (`GameDisplay.tsx`)
The extraction effect (lines 92-105) and `applyConfigChanges` (lines 217-232)
share one regex over the document: the name `window.GAME_CONFIG`, optional
whitespace, an equals sign, optional whitespace, then a lazily matched
object-literal group ending at the first closing brace that is immediately
followed by a semicolon. -/

/-- The assignment target name the regex begins with. -/
def gcName : Str := lit "window.GAME_CONFIG"

/-- Literal-prefix consumption: the rest of `s` after the prefix `pat`, when
`s` starts with it. -/
def pfx (pat s : Str) : Option Str :=
  if pat.isPrefixOf s then some (s.drop pat.length) else none

/-- The lazy group body: consume up to and including the first closing brace
immediately followed by a semicolon; the semicolon is consumed too.  Returns
the group tail (ending in the closing brace) and the rest after the
semicolon. -/
def lazyClose : Str → Option (Str × Str)
  | [] => none
  | [_] => none
  | c :: d :: rest =>
    if c = '}' ∧ d = ';' then some (['}'], rest)
    else (lazyClose (d :: rest)).map fun p => (c :: p.1, p.2)

/-- Consume one expected character. -/
def expectChar (c : Char) : Str → Option Str
  | d :: rest => if d = c then some rest else none
  | [] => none

/-- Match of the config regex anchored at the start of `s`: the full match,
the captured object-literal group, and the rest of the string. -/
def gcMatchAt (s : Str) : Option (Str × Str × Str) :=
  (pfx gcName s).bind fun r1 =>
  (expectChar '=' (r1.dropWhile isJsSpace)).bind fun r3 =>
  (expectChar '{' (r3.dropWhile isJsSpace)).bind fun r5 =>
  (lazyClose r5).map fun p =>
    (gcName ++ r1.takeWhile isJsSpace
       ++ '=' :: (r3.takeWhile isJsSpace ++ '{' :: p.1 ++ [';']),
     '{' :: p.1, p.2)

/-- First match of the config regex anywhere in the document, split as
pre-match text, full match, captured group, and post-match text. -/
def gcSplit : Str → Option (Str × Str × Str × Str)
  | [] => none
  | s@(c :: cs) =>
    match gcMatchAt s with
    | some (full, grp, rest) => some ([], full, grp, rest)
    | none => (gcSplit cs).map fun q => (c :: q.1, q.2.1, q.2.2.1, q.2.2.2)

/-- The captured object-literal text, as read by the extraction effect
(`GameDisplay.tsx` lines 92-105). -/
def extractConfig (doc : Str) : Option Str := (gcSplit doc).map fun q => q.2.2.1

mutual
/-- Configuration values.  JavaScript numbers are modelled as integers; none
of the verified claims depends on numeric formatting.  The element and field
lists are mutual inductives so that serialization is plain structural
recursion. -/
inductive JVal where
  | jnum (n : Int)
  | jstr (s : Str)
  | jbool (b : Bool)
  | jarr (elements : JList)
  | jobj (fields : JFields)

/-- A list of configuration values. -/
inductive JList where
  | nil
  | cons (head : JVal) (tail : JList)

/-- An ordered list of key-value fields. -/
inductive JFields where
  | nil
  | cons (key : Str) (val : JVal) (tail : JFields)
end

/-- `JSON.stringify` quoting of the characters occurring here. -/
def jsonEscape (s : Str) : Str :=
  (s.map fun c =>
    if c = '"' then ['\\', '"']
    else if c = '\\' then ['\\', '\\']
    else if c = '\n' then ['\\', 'n']
    else [c]).flatten

/-- An indentation run of spaces. -/
def spacesN (n : Nat) : Str := List.replicate n ' '

/-- Decimal rendering of an integer. -/
def intToStr (n : Int) : Str :=
  if n < 0 then '-' :: Nat.toDigits 10 n.natAbs else Nat.toDigits 10 n.natAbs

mutual
/-- `JSON.stringify(v, null, 2)` at indentation `ind`. -/
def stringifyAt : Nat → JVal → Str
  | _, .jnum n => intToStr n
  | _, .jbool b => if b then lit "true" else lit "false"
  | _, .jstr s => '"' :: (jsonEscape s ++ ['"'])
  | _, .jarr .nil => lit "[]"
  | ind, .jarr (xs@(.cons _ _)) =>
    '[' :: '\n' :: (spacesN (ind + 2) ++ itemsAt (ind + 2) xs
      ++ '\n' :: (spacesN ind ++ [']']))
  | _, .jobj .nil => lit "\x7b\x7d"
  | ind, .jobj (fs@(.cons _ _ _)) =>
    '{' :: '\n' :: (spacesN (ind + 2) ++ fieldsAt (ind + 2) fs
      ++ '\n' :: (spacesN ind ++ ['}']))

/-- Comma-and-newline separated array items. -/
def itemsAt : Nat → JList → Str
  | _, .nil => []
  | ind, .cons x .nil => stringifyAt ind x
  | ind, .cons x (ys@(.cons _ _)) =>
    stringifyAt ind x ++ ',' :: '\n' :: (spacesN ind ++ itemsAt ind ys)

/-- Comma-and-newline separated object fields. -/
def fieldsAt : Nat → JFields → Str
  | _, .nil => []
  | ind, .cons k v .nil =>
    '"' :: (jsonEscape k ++ '"' :: ':' :: ' ' :: stringifyAt ind v)
  | ind, .cons k v (gs@(.cons _ _ _)) =>
    '"' :: (jsonEscape k ++ '"' :: ':' :: ' ' :: stringifyAt ind v)
      ++ ',' :: '\n' :: (spacesN ind ++ fieldsAt ind gs)
end

/-- `JSON.stringify(cfg, null, 2)`. -/
def stringify (cfg : JVal) : Str := stringifyAt 0 cfg

/-- The replacement text `window.GAME_CONFIG = <serialized>;` substituted by
the editor bridge (`GameDisplay.tsx` line 225). -/
def newAssign (cfg : JVal) : Str := gcName ++ lit " = " ++ stringify cfg ++ [';']

/-- `applyConfigChanges`: re-serialize the edited config and substitute it
for the first match of the config regex; with no match the document comes
back unchanged, as `String.prototype.replace`
(`GameDisplay.tsx` lines 217-232). -/
def applyConfigChanges (doc : Str) (cfg : JVal) : Str :=
  match gcSplit doc with
  | none => doc
  | some (pre, _, _, post) => pre ++ newAssign cfg ++ post

/-- Brace-depth scan: `true` when the depth never goes negative and ends at
zero. -/
def braceBalancedAux : Str → Nat → Bool
  | [], d => d == 0
  | '{' :: cs, d => braceBalancedAux cs (d + 1)
  | '}' :: cs, d => d != 0 && braceBalancedAux cs (d - 1)
  | _ :: cs, d => braceBalancedAux cs d

/-- Whether a string has balanced braces. -/
def braceBalanced (s : Str) : Bool := braceBalancedAux s 0

/-- Depth-counting consumption of a balanced brace span: returns the consumed
span and the rest.  Used by the comparison extractor below. -/
def takeBalanced : Str → Nat → Option (Str × Str)
  | [], _ => none
  | '{' :: cs, d => (takeBalanced cs (d + 1)).map fun p => ('{' :: p.1, p.2)
  | '}' :: cs, d =>
    if d = 1 then some (['}'], cs)
    else if d = 0 then none
    else (takeBalanced cs (d - 1)).map fun p => ('}' :: p.1, p.2)
  | c :: cs, d => (takeBalanced cs d).map fun p => (c :: p.1, p.2)

/-- Anchored form of `extractConfigBalanced`. -/
def extractConfigBalancedAt (s : Str) : Option Str :=
  if gcName.isPrefixOf s then
    let r1 := s.drop gcName.length
    let w1 := (r1.takeWhile isJsSpace).length
    match r1.drop w1 with
    | '=' :: r3 =>
      let w2 := (r3.takeWhile isJsSpace).length
      match r3.drop w2 with
      | '{' :: r5 => (takeBalanced ('{' :: r5) 0).map fun p => p.1
      | _ => none
    | _ => none
  else none

/-- Modelled from the spec: the brace-matching behavior the spec requires of
the configuration extractor — an explicit brace-depth counter locating the
balanced object literal after the assignment, instead of the source's
non-greedy regex. -/
def extractConfigBalanced : Str → Option Str
  | [] => none
  | s@(_ :: cs) => extractConfigBalancedAt s <|> extractConfigBalanced cs

/-! ### Widget inference (`GameDisplay.tsx` lines 346-456) -/

/-- The editing-control kinds `renderEditorInput` can produce. -/
inductive Widget where
  | volumeSlider
  | waveformSelect
  | numericField
  | toggle
  | colorPair
  | textField
  | jsonEditor
deriving DecidableEq, Repr

/-- Widget classification of `renderEditorInput`: branch order and conditions
as in the source (`GameDisplay.tsx` lines 346-456). -/
def inferWidget (key : Str) (v : JVal) : Widget :=
  match v with
  | .jnum _ =>
    if strContains (toLower key) (lit "volume") || strContains (toLower key) (lit "gain") then
      .volumeSlider
    else .numericField
  | .jstr s =>
    if strContains (toLower key) (lit "type")
        && (strContains (toLower key) (lit "sound") || strContains (toLower key) (lit "wave")) then
      .waveformSelect
    else if (lit "#").isPrefixOf s && (s.length == 4 || s.length == 7) then
      .colorPair
    else .textField
  | .jbool _ => .toggle
  | .jarr _ => .jsonEditor
  | .jobj _ => .jsonEditor

/-- Hexadecimal digit. -/
def isHexDigit (c : Char) : Bool :=
  c.isDigit || ('a' ≤ c && c ≤ 'f') || ('A' ≤ c && c ≤ 'F')

/-- Modelled from the spec: the hex-color pattern — a hash mark followed by 3
or 6 hexadecimal digits. -/
def isHexColor : Str → Bool
  | '#' :: rest => (rest.length == 3 || rest.length == 6) && rest.all isHexDigit
  | _ => false

/-! ### SandboxRuntime resource discipline (`GameDisplay.tsx` lines 107-124)
The materialization effect creates an object URL for the current (nonempty)
document, points the frame at it, and returns a cleanup revoking that URL;
the host framework runs the previous effect's cleanup before the next run of
the effect, and on teardown. -/

/-- Object-URL bookkeeping: the created-but-unrevoked URLs, the URL held by
the pending cleanup, and a fresh-name counter. -/
structure SandboxState where
  live : List Nat
  current : Option Nat
  nextId : Nat
deriving DecidableEq, Repr

/-- Before the display mounts: nothing materialized. -/
def initialSandbox : SandboxState := ⟨[], none, 0⟩

/-- Cleanup of the materialization effect: revoke the object URL it created
(`GameDisplay.tsx` lines 119-122). -/
def runCleanup (s : SandboxState) : SandboxState :=
  match s.current with
  | none => s
  | some u => ⟨s.live.erase u, none, s.nextId⟩

/-- Body of the materialization effect: create a fresh object URL
(`GameDisplay.tsx` lines 110-112). -/
def runEffect (s : SandboxState) : SandboxState :=
  ⟨s.live ++ [s.nextId], some s.nextId, s.nextId + 1⟩

/-- One documentSource change or edit: previous cleanup, then the effect. -/
def applyEdit (s : SandboxState) : SandboxState := runEffect (runCleanup s)

/-- Unmounting the display runs the pending cleanup. -/
def teardown (s : SandboxState) : SandboxState := runCleanup s

/-- The state after `n` consecutive documentSource changes from the initial
state (the first one being the initial materialization). -/
def editsN : Nat → SandboxState
  | 0 => initialSandbox
  | n + 1 => applyEdit (editsN n)


/-! ### Helper lemmas -/

theorem strContains_nil (s : Str) : strContains s [] = true := by
  induction s with
  | nil => rfl
  | cons c cs ih => simp [strContains, ih, List.isPrefixOf]

theorem isPrefixOf_append (p a b : Str) (h : p.isPrefixOf a = true) :
    p.isPrefixOf (a ++ b) = true := by
  rw [List.isPrefixOf_iff_prefix] at h ⊢
  exact h.trans (List.prefix_append a b)

theorem strContains_append_left (a b p : Str) (h : strContains a p = true) :
    strContains (a ++ b) p = true := by
  induction a with
  | nil =>
    simp [strContains] at h
    simp [h, strContains_nil]
  | cons c a' ih =>
    simp only [strContains, Bool.or_eq_true] at h ⊢
    rcases h with h | h
    · exact Or.inl (isPrefixOf_append p (c :: a') b h)
    · exact Or.inr (ih h)

theorem strContains_append_right (a b p : Str) (h : strContains b p = true) :
    strContains (a ++ b) p = true := by
  induction a with
  | nil => simpa using h
  | cons c a' ih =>
    simp only [List.cons_append, strContains, Bool.or_eq_true]
    exact Or.inr ih

theorem toLower_append (a b : Str) : toLower (a ++ b) = toLower a ++ toLower b :=
  List.map_append _ a b

/-- The first repair step always yields a document containing the
document-type declaration, case-insensitively. -/
theorem ensureDoctype_contains (h : Str) :
    strContains (toLower (ensureDoctype h)) (lit "<!doctype html>") = true := by
  unfold ensureDoctype
  split
  case isTrue hc => exact hc
  case isFalse hc =>
    rw [toLower_append]
    exact strContains_append_left _ _ _ (by decide)

/-- The repair pass always yields a document containing the document-type
declaration and the closing root marker, case-insensitively. -/
theorem repairHtml_contains (h : Str) :
    strContains (toLower (repairHtml h)) (lit "<!doctype html>") = true
    ∧ strContains (toLower (repairHtml h)) (lit "</html>") = true := by
  unfold repairHtml
  constructor
  · split
    · exact ensureDoctype_contains h
    · rw [toLower_append]
      exact strContains_append_left _ _ _ (ensureDoctype_contains h)
  · split
    case isTrue hc => exact hc
    case isFalse hc =>
      rw [toLower_append]
      exact strContains_append_right _ _ _ (by decide)

/-- The repair pass never shrinks the document. -/
theorem repairHtml_length (h : Str) : h.length ≤ (repairHtml h).length := by
  have h1 : h.length ≤ (ensureDoctype h).length := by
    unfold ensureDoctype
    split <;> simp [List.length_append]
  unfold repairHtml
  split
  · exact h1
  · simp only [List.length_append]
    omega

/-- The synthetic shell contains the document-type declaration and the
closing root marker, case-insensitively. -/
theorem syntheticWrap_contains (t : Str) :
    strContains (toLower (syntheticWrap t)) (lit "<!doctype html>") = true
    ∧ strContains (toLower (syntheticWrap t)) (lit "</html>") = true := by
  have hd : strContains (toLower wrapPre) (lit "<!doctype html>") = true := by decide
  have hc : strContains (toLower wrapPost) (lit "</html>") = true := by decide
  unfold syntheticWrap
  rw [toLower_append, toLower_append]
  constructor
  · exact strContains_append_left _ _ _ (strContains_append_left _ _ _ hd)
  · exact strContains_append_right _ _ _ hc

theorem removeAllAux_id (pat : Str) (s : Str) (h : strContains s pat = false) :
    ∀ fuel, removeAllAux pat fuel s = s := by
  induction s with
  | nil => intro fuel; cases fuel <;> rfl
  | cons c cs ih =>
    intro fuel
    simp only [strContains, Bool.or_eq_false_iff] at h
    cases fuel with
    | zero => rfl
    | succ f =>
      simp only [removeAllAux, h.1, if_false, Bool.false_eq_true]
      rw [ih h.2 f]

theorem removeAll_id (pat s : Str) (h : strContains s pat = false) :
    removeAll pat s = s := removeAllAux_id pat s h s.length

theorem removeAllCIAux_id (pat : Str) (s : Str)
    (h : strContains (toLower s) (toLower pat) = false) :
    ∀ fuel, removeAllCIAux pat fuel s = s := by
  induction s with
  | nil => intro fuel; cases fuel <;> rfl
  | cons c cs ih =>
    intro fuel
    have hcons : toLower (c :: cs) = c.toLower :: toLower cs := rfl
    rw [hcons] at h
    simp only [strContains, Bool.or_eq_false_iff] at h
    cases fuel with
    | zero => rfl
    | succ f =>
      have hpre : (toLower pat).isPrefixOf (toLower (c :: cs)) = false := by
        rw [hcons]; exact h.1
      simp only [removeAllCIAux, hpre, if_false, Bool.false_eq_true]
      rw [ih h.2 f]

theorem removeAllCI_id (pat s : Str)
    (h : strContains (toLower s) (toLower pat) = false) :
    removeAllCI pat s = s := removeAllCIAux_id pat s h s.length

/-- A successful lazy-group match splits the scanned string. -/
theorem lazyClose_decomp (s : Str) :
    ∀ body rest, lazyClose s = some (body, rest) → s = body ++ ';' :: rest := by
  induction s with
  | nil => intro b r h; simp [lazyClose] at h
  | cons c cs ih =>
    intro b r h
    cases cs with
    | nil => simp [lazyClose] at h
    | cons d rest =>
      by_cases hcd : c = '}' ∧ d = ';'
      · rw [lazyClose, if_pos hcd] at h
        obtain ⟨hb, hr⟩ := Prod.mk.injEq .. ▸ Option.some.injEq .. ▸ h
        subst hb; subst hr
        simp [hcd.1, hcd.2]
      · rw [lazyClose, if_neg hcd] at h
        obtain ⟨⟨b', r'⟩, hp, hq⟩ := Option.map_eq_some'.mp h
        obtain ⟨hb, hr⟩ := Prod.mk.injEq .. ▸ hq
        subst hb; subst hr
        simpa using ih b' r' hp

/-- A successful prefix consumption splits the scanned string. -/
theorem pfx_decomp (pat s r : Str) (h : pfx pat s = some r) : s = pat ++ r := by
  unfold pfx at h
  split at h
  case isTrue hp =>
    obtain ⟨t, ht⟩ := (List.isPrefixOf_iff_prefix.mp hp)
    obtain rfl := Option.some.injEq .. ▸ h
    subst ht
    rw [List.drop_left]
  case isFalse => exact absurd h (by simp)

/-- A successful character consumption splits the scanned string. -/
theorem expectChar_decomp (c : Char) (s r : Str) (h : expectChar c s = some r) :
    s = c :: r := by
  cases s with
  | nil => simp [expectChar] at h
  | cons d rest =>
    simp only [expectChar] at h
    split at h
    next hd =>
      obtain rfl := Option.some.injEq .. ▸ h
      rw [hd]
    next => exact absurd h (by simp)

/-- A successful anchored config-regex match splits the scanned string into
the full match and the rest. -/
theorem gcMatchAt_decomp (s : Str) :
    ∀ full grp rest, gcMatchAt s = some (full, grp, rest) → s = full ++ rest := by
  intro full grp rest h
  unfold gcMatchAt at h
  obtain ⟨r1, hp, h⟩ := Option.bind_eq_some.mp h
  obtain ⟨r3, he, h⟩ := Option.bind_eq_some.mp h
  obtain ⟨r5, hb, h⟩ := Option.bind_eq_some.mp h
  obtain ⟨⟨body, rst⟩, hlc, hq⟩ := Option.map_eq_some'.mp h
  simp only [Prod.mk.injEq] at hq
  obtain ⟨hfull, hgrp, hrest⟩ := hq
  have h1 : s = gcName ++ r1 := pfx_decomp _ _ _ hp
  have h2 : r1 = r1.takeWhile isJsSpace ++ ('=' :: r3) := by
    rw [← expectChar_decomp '=' (r1.dropWhile isJsSpace) r3 he,
      List.takeWhile_append_dropWhile]
  have h3 : r3 = r3.takeWhile isJsSpace ++ ('{' :: r5) := by
    rw [← expectChar_decomp '{' (r3.dropWhile isJsSpace) r5 hb,
      List.takeWhile_append_dropWhile]
  have h4 : r5 = body ++ ';' :: rst := lazyClose_decomp r5 body rst hlc
  rw [← hfull, ← hrest, h1]
  conv_lhs => rw [h2, h3, h4]
  simp

/-- A successful config-regex search splits the document. -/
theorem gcSplit_decomp (s : Str) :
    ∀ pre full grp post, gcSplit s = some (pre, full, grp, post) →
      s = pre ++ full ++ post := by
  induction s with
  | nil => intro pre full grp post h; simp [gcSplit] at h
  | cons c cs ih =>
    intro pre full grp post h
    unfold gcSplit at h
    cases hm : gcMatchAt (c :: cs) with
    | some t =>
      obtain ⟨f, g, rst⟩ := t
      rw [hm] at h
      simp only [Option.some.injEq, Prod.mk.injEq] at h
      obtain ⟨hpre, hfull, hgrp, hpost⟩ := h
      rw [← hpre, ← hfull, ← hpost]
      simpa using gcMatchAt_decomp (c :: cs) f g rst hm
    | none =>
      rw [hm] at h
      obtain ⟨⟨p4, f4, g4, r4⟩, hq, he⟩ := Option.map_eq_some'.mp h
      simp only [Prod.mk.injEq] at he
      obtain ⟨hpre, hfull, hgrp, hpost⟩ := he
      rw [← hpre, ← hfull, ← hpost]
      have hcs := ih p4 f4 g4 r4 hq
      simp [hcs]

/-- One retryable failure before the last attempt: the loop sleeps
`2000 * (attempt + 1)` and continues. -/
theorem genFrom_step (oracle : Oracle) (gen : Nat → GenOutcome)
    (att rem : Nat) (le : Option GenError) (e : GenError)
    (h : attemptOutcome oracle (gen att) = .error e) (hr : retryable e)
    (hlt : att < 2) :
    genFrom oracle gen att (rem + 1) le =
      ⟨(genFrom oracle gen (att + 1) rem (some e)).result,
       (genFrom oracle gen (att + 1) rem (some e)).calls + 1,
       2000 * (att + 1) :: (genFrom oracle gen (att + 1) rem (some e)).sleeps⟩ := by
  have hne : ¬(e = GenError.safetyError ∨ e = GenError.apiKeyMissing) := by
    rintro (rfl | rfl)
    · exact hr.1 rfl
    · exact hr.2 rfl
  simp only [genFrom, h]
  rw [if_neg hne, if_pos hlt]

/-- A retryable failure on the last attempt: no sleep, the loop just moves to
its exhausted end. -/
theorem genFrom_step_last (oracle : Oracle) (gen : Nat → GenOutcome)
    (rem : Nat) (le : Option GenError) (e : GenError)
    (h : attemptOutcome oracle (gen 2) = .error e) (hr : retryable e) :
    genFrom oracle gen 2 (rem + 1) le =
      ⟨(genFrom oracle gen 3 rem (some e)).result,
       (genFrom oracle gen 3 rem (some e)).calls + 1,
       (genFrom oracle gen 3 rem (some e)).sleeps⟩ := by
  have hne : ¬(e = GenError.safetyError ∨ e = GenError.apiKeyMissing) := by
    rintro (rfl | rfl)
    · exact hr.1 rfl
    · exact hr.2 rfl
  simp only [genFrom, h]
  rw [if_neg hne, if_neg (by omega)]

/-- A successful attempt ends the loop at once. -/
theorem genFrom_ok (oracle : Oracle) (gen : Nat → GenOutcome)
    (att rem : Nat) (le : Option GenError) (r : GameGenerationResponse)
    (h : attemptOutcome oracle (gen att) = .ok r) :
    genFrom oracle gen att (rem + 1) le = ⟨.ok r, 1, []⟩ := by
  simp [genFrom, h]

/-- The loop makes at most as many calls as it has attempts left. -/
theorem genFrom_calls_le (oracle : Oracle) (gen : Nat → GenOutcome) :
    ∀ (rem att : Nat) (le : Option GenError),
      (genFrom oracle gen att rem le).calls ≤ rem := by
  intro rem
  induction rem with
  | zero => intro att le; simp [genFrom]
  | succ n ih =>
    intro att le
    cases hao : attemptOutcome oracle (gen att) with
    | ok r => rw [genFrom_ok oracle gen att n le r hao]; simp
    | error e =>
      by_cases hse : e = GenError.safetyError ∨ e = GenError.apiKeyMissing
      · simp only [genFrom, hao]
        rw [if_pos hse]
        simp
      · have hr : retryable e := by
          constructor
          · intro hh; exact hse (Or.inl hh)
          · intro hh; exact hse (Or.inr hh)
        by_cases hlt : att < 2
        · rw [genFrom_step oracle gen att n le e hao hr hlt]
          have := ih (att + 1) (some e)
          simp only [GenRun.mk.injEq]
          omega
        · simp only [genFrom, hao]
          rw [if_neg hse, if_neg hlt]
          have := ih (att + 1) (some e)
          simp only
          omega

/-- After every edit exactly one object URL is live and it is the one held
by the pending cleanup. -/
theorem editsN_inv : ∀ n : Nat, ∃ u : Nat,
    (editsN (n + 1)).live = [u] ∧ (editsN (n + 1)).current = some u := by
  intro n
  induction n with
  | zero => exact ⟨0, by decide, by decide⟩
  | succ m ih =>
    obtain ⟨u, hl, hc⟩ := ih
    refine ⟨(editsN (m + 1)).nextId, ?_, ?_⟩
    · show (applyEdit (editsN (m + 1))).live = _
      simp [applyEdit, runCleanup, hc, hl, runEffect]
    · show (applyEdit (editsN (m + 1))).current = _
      simp [applyEdit, runCleanup, hc, runEffect]

/-! ### Concrete instances used by the claims -/

/-- Claim C1 failing input: a document whose configuration literal is
balanced, with nested braces, and contains a closing brace immediately
followed by a semicolon inside a nested function body. -/
def c1doc : Str := lit "<!DOCTYPE html><html><body><script>window.GAME_CONFIG = \x7b speed: 5, reset: function()\x7b return \x7b\x7d; \x7d \x7d;</script></body></html>"

/-- The balanced configuration literal embedded in `c1doc`. -/
def c1lit : Str := lit "\x7b speed: 5, reset: function()\x7b return \x7b\x7d; \x7d \x7d"

/-- What the source's non-greedy regex actually captures from `c1doc`. -/
def c1trunc : Str := lit "\x7b speed: 5, reset: function()\x7b return \x7b\x7d"

/-- The corrupted document produced by a no-op apply on `c1doc`: the
truncated span was replaced, leaving stray closing braces behind. -/
def c1corrupt : Str := lit "<!DOCTYPE html><html><body><script>window.GAME_CONFIG = \x7b\x7d; \x7d \x7d;</script></body></html>"

/-- Claim C2 witness input: start delimiter, no end delimiter, 59 characters
after the marker. -/
def w2text : Str := lit "<<<HTML_START>>><html><body>0123456789012345678901234567890123456789</body>"

/-- Claim C3 witness: the parseable third response. -/
def w3text : Str := lit "<<<HTML_START>>><html><body>0123456789012345678901234567890123456789</body></html><<<HTML_END>>>"

/-- Claim C3 witness: the artifact document of the third response. -/
def w3html : Str := lit "<!DOCTYPE html>\n<html><body>0123456789012345678901234567890123456789</body></html>"

/-- Claim C3 witness generator: two transport failures, then success. -/
def w3gen : Nat → GenOutcome := fun n =>
  if n = 2 then GenOutcome.response w3text false else GenOutcome.transport (lit "boom")

/-- Claim C6 witness input. -/
def w6text : Str := lit "<<<HTML_START>>><h1>Game</h1><canvas id=\"c\"></canvas><script>go()</script>"

/-- Claim C6 witness output document (declaration prepended, closing
appended). -/
def w6html : Str := lit "<!DOCTYPE html>\n<h1>Game</h1><canvas id=\"c\"></canvas><script>go()</script>\n</body>\n</html>"

/-- Claim C7 witness document. -/
def w7doc : Str := lit "<html><body><script>window.GAME_CONFIG = \x7b speed: 3 \x7d;</script></body></html>"

/-- Claim C7 witness: text before the regex match. -/
def w7pre : Str := lit "<html><body><script>"

/-- Claim C7 witness: the full regex match. -/
def w7full : Str := lit "window.GAME_CONFIG = \x7b speed: 3 \x7d;"

/-- Claim C7 witness: the captured group. -/
def w7grp : Str := lit "\x7b speed: 3 \x7d"

/-- Claim C7 witness: text after the regex match. -/
def w7post : Str := lit "</script></body></html>"

/-- Claim C10 witness input: no controls payload anywhere. -/
def w10text : Str := lit "<<<HTML_START>>><div>another game shell with enough characters to pass the checks</div>"

/-- Claim C10 witness output document. -/
def w10html : Str := lit "<!DOCTYPE html>\n<div>another game shell with enough characters to pass the checks</div>\n</body>\n</html>"

/-! ### Claims -/

/-- Claim C1 (code bug): on a document whose configuration literal is
balanced and has nested braces, the claim requires brace-matching that
handles the nesting correctly, so that extraction followed by a no-op
`applyConfigChanges` round trip is semantically idempotent.  The source's
non-greedy regex instead truncates the captured literal at the first closing
brace followed by a semicolon: the captured text is unbalanced (so evaluating
it must fail and no configuration is extracted), and the no-op apply replaces
the truncated span, leaving stray fragments behind — the document's
configuration is destroyed rather than preserved.  The spec-required
depth-counter extraction returns the full balanced literal on the same
input. -/
theorem C1_nested_brace_truncation :
    extractConfigBalanced c1doc = some c1lit
    ∧ braceBalanced c1lit = true
    ∧ extractConfig c1doc = some c1trunc
    ∧ braceBalanced c1trunc = false
    ∧ extractConfig c1doc ≠ extractConfigBalanced c1doc
    ∧ applyConfigChanges c1doc (.jobj .nil) = c1corrupt
    ∧ extractConfigBalanced c1corrupt = some (lit "\x7b\x7d")
    ∧ c1corrupt ≠ c1doc := by
  refine ⟨by decide, by decide, by decide, by decide, by decide, ?_, by decide, by decide⟩
  have hsplit : gcSplit c1doc = some (lit "<!DOCTYPE html><html><body><script>",
      lit "window.GAME_CONFIG = \x7b speed: 5, reset: function()\x7b return \x7b\x7d;",
      c1trunc, lit " \x7d \x7d;</script></body></html>") := by decide
  have hna : newAssign (.jobj .nil) = lit "window.GAME_CONFIG = \x7b\x7d;" := by
    simp [newAssign, stringify, stringifyAt]
    decide
  simp only [applyConfigChanges, hsplit, hna]
  decide

/-- Claim C2 (counterexample): a raw output containing the document start
delimiter but no end delimiter on which `parse` nevertheless fails: the text
after the start marker is short and has no canvas or script token, so the
final check throws `INVALID_FORMAT` instead of returning a non-empty
documentSource. -/
theorem C2_counterexample :
    findDelim (lit "HTML_START") (lit "<<<HTML_START>>>hello") = some (0, 16)
    ∧ findDelim (lit "HTML_END") (lit "<<<HTML_START>>>hello") = none
    ∧ parseGameText oracleNone (lit "<<<HTML_START>>>hello") = .error .invalidFormat := by
  decide

/-- Claim C2 (amended): for raw text containing the document start delimiter
but no end delimiter, `parse` takes everything after the start marker, and —
provided that suffix trims to at least 50 characters — succeeds with a
non-empty documentSource derived from it (the repair pass applied to the
trimmed suffix). -/
theorem C2_truncation_tolerance (oracle : Oracle) (text : Str) (i l : Nat)
    (hs : findDelim (lit "HTML_START") text = some (i, l))
    (he : findDelim (lit "HTML_END") text = none)
    (hlen : 50 ≤ (trim (text.drop (i + l))).length) :
    parseGameText oracle text =
      .ok ⟨repairHtml (trim (text.drop (i + l))), extractControls oracle text⟩
    ∧ repairHtml (trim (text.drop (i + l))) ≠ [] := by
  have hdelim : extractHtmlDelim text = trim (text.drop (i + l)) := by
    simp [extractHtmlDelim, hs, he]
  have hne : extractHtmlDelim text ≠ [] := by
    rw [hdelim]
    intro hnil
    rw [hnil] at hlen
    simp at hlen
  have hext : extractHtml text = trim (text.drop (i + l)) := by
    rw [extractHtml, if_neg hne, hdelim]
  constructor
  · unfold parseGameText
    rw [hext, if_neg (by omega)]
  · intro hnil
    have h2 := repairHtml_length (trim (text.drop (i + l)))
    rw [hnil] at h2
    simp only [List.length_nil, Nat.le_zero] at h2
    omega

/-- Claim C2 witness: a concrete truncated output with 59 characters after
the start marker parses successfully into the repaired suffix. -/
theorem C2_witness :
    parseGameText oracleNone w2text =
      .ok ⟨repairHtml (trim (w2text.drop (0 + 16))), extractControls oracleNone w2text⟩
    ∧ repairHtml (trim (w2text.drop (0 + 16))) ≠ [] :=
  C2_truncation_tolerance oracleNone w2text 0 16 (by decide) (by decide) (by decide)

/-- Claim C3: the orchestrator makes at most 3 calls to the external
generator; when the first two attempts fail retryably and the third
succeeds, it returns the successful artifact having slept exactly 2000 ms
then 4000 ms; when all three attempts fail retryably it fails carrying the
last underlying error, again after exactly those two waits. -/
theorem C3_retry_backoff (oracle : Oracle) (gen : Nat → GenOutcome)
    (r : GameGenerationResponse) (e0 e1 : GenError)
    (h0 : attemptOutcome oracle (gen 0) = .error e0) (h0r : retryable e0)
    (h1 : attemptOutcome oracle (gen 1) = .error e1) (h1r : retryable e1)
    (h2 : attemptOutcome oracle (gen 2) = .ok r) :
    generateGameCode oracle true gen = ⟨.ok r, 3, [2000, 4000]⟩
    ∧ (∀ g : Nat → GenOutcome, (generateGameCode oracle true g).calls ≤ 3)
    ∧ (∀ (g : Nat → GenOutcome) (f0 f1 f2 : GenError),
        attemptOutcome oracle (g 0) = .error f0 → retryable f0 →
        attemptOutcome oracle (g 1) = .error f1 → retryable f1 →
        attemptOutcome oracle (g 2) = .error f2 → retryable f2 →
        generateGameCode oracle true g = ⟨.error f2, 3, [2000, 4000]⟩) := by
  refine ⟨?_, ?_, ?_⟩
  · have s2 : genFrom oracle gen 2 1 (some e1) = ⟨.ok r, 1, []⟩ :=
      genFrom_ok oracle gen 2 0 (some e1) r h2
    have s1 : genFrom oracle gen 1 2 (some e0) = ⟨.ok r, 2, [4000]⟩ := by
      rw [genFrom_step oracle gen 1 1 (some e0) e1 h1 h1r (by omega), s2]
    have s0 : genFrom oracle gen 0 3 none = ⟨.ok r, 3, [2000, 4000]⟩ := by
      rw [genFrom_step oracle gen 0 2 none e0 h0 h0r (by omega), s1]
    simpa [generateGameCode] using s0
  · intro g
    have := genFrom_calls_le oracle g 3 0 none
    simpa [generateGameCode] using this
  · intro g f0 f1 f2 k0 k0r k1 k1r k2 k2r
    have s2 : genFrom oracle g 2 1 (some f1) = ⟨.error f2, 1, []⟩ := by
      rw [genFrom_step_last oracle g 0 (some f1) f2 k2 k2r]
      rfl
    have s1 : genFrom oracle g 1 2 (some f0) = ⟨.error f2, 2, [4000]⟩ := by
      rw [genFrom_step oracle g 1 1 (some f0) f1 k1 k1r (by omega), s2]
    have s0 : genFrom oracle g 0 3 none = ⟨.error f2, 3, [2000, 4000]⟩ := by
      rw [genFrom_step oracle g 0 2 none f0 k0 k0r (by omega), s1]
    simpa [generateGameCode] using s0

/-- Claim C3 witness: a simulated generator throwing a transport error on its
first two calls and producing a parseable response on the third; the run
returns the artifact after 3 calls with sleeps of exactly 2000 ms and
4000 ms. -/
theorem C3_witness :
    generateGameCode oracleNone true w3gen
      = ⟨.ok ⟨w3html, [defaultControl]⟩, 3, [2000, 4000]⟩ :=
  (C3_retry_backoff oracleNone w3gen ⟨w3html, [defaultControl]⟩
      (.transport (lit "boom")) (.transport (lit "boom"))
      (by decide) ⟨by decide, by decide⟩
      (by decide) ⟨by decide, by decide⟩ (by decide)).1

/-- Claim C4: a response whose termination reason indicates the safety
refusal makes `generateGameCode` fail immediately as the safety error after
exactly one call, with no backoff wait; a missing credential fails before any
call is made. -/
theorem C4_safety_no_retry (oracle : Oracle) (gen : Nat → GenOutcome) (t : Str)
    (h : gen 0 = .response t true) :
    generateGameCode oracle true gen = ⟨.error .safetyError, 1, []⟩
    ∧ (∀ g : Nat → GenOutcome,
        generateGameCode oracle false g = ⟨.error .apiKeyMissing, 0, []⟩) := by
  constructor
  · have h0 : attemptOutcome oracle (gen 0) = .error .safetyError := by
      rw [h]; rfl
    simp [generateGameCode, genFrom, h0]
  · intro g
    simp [generateGameCode]

/-- Claim C4 witness: a generator whose first response is safety-blocked is
called exactly once and the run fails with the safety error. -/
theorem C4_witness :
    generateGameCode oracleNone true (fun _ => GenOutcome.response (lit "kaboom") true)
      = ⟨.error .safetyError, 1, []⟩ :=
  (C4_safety_no_retry oracleNone (fun _ => GenOutcome.response (lit "kaboom") true)
      (lit "kaboom") rfl).1

/-- Claim C5 (counterexample): a raw text in which the structural layer DOES
locate a document fragment (the document-type declaration is found at index
0 and the whole 28-character document is extracted), yet `parse` still
signals `INVALID_FORMAT`, because the fragment is shorter than 50 characters
and the text has no canvas or script token. -/
theorem C5_counterexample :
    searchCI (lit "<!DOCTYPE html>") (cleanOf (lit "<!DOCTYPE html><html></html>")) = some 0
    ∧ extractHtml (lit "<!DOCTYPE html><html></html>") = lit "<!DOCTYPE html><html></html>"
    ∧ parseGameText oracleNone (lit "<!DOCTYPE html><html></html>") = .error .invalidFormat := by
  decide

/-- Claim C5 (amended): `parse` signals `INVALID_FORMAT` exactly when the
extraction layers produced a fragment shorter than 50 characters (including
no fragment at all) and the raw text has no canvas and no script token; in
particular raw text with no delimiters, no fences, no document markers, and
no canvas or script tokens always fails with `INVALID_FORMAT`. -/
theorem C5_invalid_format_characterization (oracle : Oracle) (text : Str) :
    (parseGameText oracle text = .error .invalidFormat ↔
      ((extractHtml text).length < 50
        ∧ strContains text (lit "<canvas") = false
        ∧ strContains text (lit "<script") = false))
    ∧ (∀ prose : Str,
        findDelim (lit "HTML_START") prose = none →
        strContains (toLower prose) (toLower (lit "```html")) = false →
        strContains prose (lit "```") = false →
        searchCI (lit "<!DOCTYPE html>") prose = none →
        searchCI (lit "<html") prose = none →
        strContains prose (lit "<canvas") = false →
        strContains prose (lit "<script") = false →
        parseGameText oracle prose = .error .invalidFormat) := by
  have main : ∀ t : Str, (parseGameText oracle t = .error .invalidFormat ↔
      ((extractHtml t).length < 50
        ∧ strContains t (lit "<canvas") = false
        ∧ strContains t (lit "<script") = false)) := by
    intro t
    unfold parseGameText
    split
    next hlen =>
      split
      next htok =>
        constructor
        · intro h; exact absurd h (by simp)
        · rintro ⟨_, hc, hs⟩
          rw [hc, hs] at htok
          simp at htok
      next htok =>
        rw [Bool.or_eq_true, not_or, Bool.not_eq_true, Bool.not_eq_true] at htok
        exact ⟨fun _ => ⟨hlen, htok.1, htok.2⟩, fun _ => rfl⟩
    next hlen =>
      constructor
      · intro h; exact absurd h (by simp)
      · rintro ⟨h50, _, _⟩; exact absurd h50 hlen
  refine ⟨main text, ?_⟩
  intro prose h1 h2 h3 h4 h5 h6 h7
  have hclean : cleanOf prose = prose := by
    unfold cleanOf
    rw [removeAllCI_id _ _ h2]
    exact removeAll_id _ _ h3
  have hstruct : extractHtmlStructural prose = [] := by
    simp only [extractHtmlStructural, hclean, h4, h5]
  have hdelim : extractHtmlDelim prose = [] := by
    simp only [extractHtmlDelim, h1]
  have hext : extractHtml prose = [] := by
    simp [extractHtml, hdelim, hstruct]
  rw [main prose]
  refine ⟨?_, h6, h7⟩
  rw [hext]
  simp

/-- Claim C5 witness: a concrete off-topic prose response fails with
`INVALID_FORMAT`. -/
theorem C5_witness :
    parseGameText oracleNone (lit "Sorry, that request cannot be turned into a game.")
      = .error .invalidFormat :=
  (C5_invalid_format_characterization oracleNone []).2
    (lit "Sorry, that request cannot be turned into a game.")
    (by decide) (by decide) (by decide) (by decide) (by decide) (by decide) (by decide)

/-- Claim C6: every successful parse returns a documentSource containing a
document-type declaration and a closing root-element marker (checked
case-insensitively, as the repair pass does). -/
theorem C6_complete_document (oracle : Oracle) (text : Str)
    (r : GameGenerationResponse) (h : parseGameText oracle text = .ok r) :
    strContains (toLower r.html) (lit "<!doctype html>") = true
    ∧ strContains (toLower r.html) (lit "</html>") = true := by
  unfold parseGameText at h
  split at h
  · split at h
    · injection h with h
      subst h
      exact syntheticWrap_contains text
    · exact absurd h (by simp)
  · injection h with h
    subst h
    exact repairHtml_contains (extractHtml text)

/-- Claim C6 witness: a concrete successful parse whose repaired document
contains the declaration and the closing marker. -/
theorem C6_witness :
    strContains (toLower w6html) (lit "<!doctype html>") = true
    ∧ strContains (toLower w6html) (lit "</html>") = true :=
  C6_complete_document oracleNone w6text ⟨w6html, [defaultControl]⟩ (by decide)

/-- Claim C7: `applyConfigChanges` is a total function (never throws); when
the configuration-assignment pattern matches it replaces exactly the matched
span, leaving every byte before and after unchanged, and when no pattern
matches (an internal substitution failure) it returns the input document
unchanged. -/
theorem C7_applyEdits_frame (doc : Str) (cfg : JVal) :
    (gcSplit doc = none → applyConfigChanges doc cfg = doc)
    ∧ (∀ pre full grp post, gcSplit doc = some (pre, full, grp, post) →
        doc = pre ++ full ++ post
        ∧ applyConfigChanges doc cfg = pre ++ newAssign cfg ++ post) := by
  constructor
  · intro h
    simp [applyConfigChanges, h]
  · intro pre full grp post h
    exact ⟨gcSplit_decomp doc pre full grp post h, by simp [applyConfigChanges, h]⟩

/-- Claim C7 witness: on a concrete document the pattern matches, the
document decomposes around the match, and the apply replaces exactly the
matched span. -/
theorem C7_witness :
    w7doc = w7pre ++ w7full ++ w7post
    ∧ applyConfigChanges w7doc (.jobj .nil) = w7pre ++ newAssign (.jobj .nil) ++ w7post :=
  (C7_applyEdits_frame w7doc (.jobj .nil)).2 w7pre w7full w7grp w7post (by decide)

/-- Claim C8: the sandbox keeps exactly one materialized object URL live at a
time — after any sequence of documentSource changes (in particular after 10
consecutive edits) exactly one resource handle is live, and teardown releases
it. -/
theorem C8_single_live_resource :
    (∀ n : Nat, (editsN (n + 1)).live.length = 1)
    ∧ (editsN 10).live.length = 1
    ∧ (∀ n : Nat, (teardown (editsN (n + 1))).live = []) := by
  refine ⟨?_, by decide, ?_⟩
  · intro n
    obtain ⟨u, hl, _⟩ := editsN_inv n
    rw [hl]
    rfl
  · intro n
    obtain ⟨u, hl, hc⟩ := editsN_inv n
    simp [teardown, runCleanup, hc, hl]

/-- Claim C9 (counterexample): the string `#zzz` does not match the
hex-color pattern (its tail is not hexadecimal), yet the source's check —
which only tests the leading hash mark and the length — classifies it as the
color-plus-text pair. -/
theorem C9_counterexample :
    inferWidget (lit "name") (.jstr (lit "#zzz")) = .colorPair
    ∧ isHexColor (lit "#zzz") = false := by
  decide

/-- Claim C9 (amended): for a string-valued entry whose key does not match
the waveform rule, the inferred widget is the color-plus-text pair exactly
when the value starts with a hash mark and has total length 4 or 7 (the hex
digits themselves are not validated), and any other string gets the
free-text widget. -/
theorem C9_color_widget (key s : Str)
    (hw : (strContains (toLower key) (lit "type")
        && (strContains (toLower key) (lit "sound")
            || strContains (toLower key) (lit "wave"))) = false) :
    (inferWidget key (.jstr s) = .colorPair
      ↔ ((lit "#").isPrefixOf s && (s.length == 4 || s.length == 7)) = true)
    ∧ (((lit "#").isPrefixOf s && (s.length == 4 || s.length == 7)) = false →
        inferWidget key (.jstr s) = .textField) := by
  have hw' : ¬((strContains (toLower key) (lit "type")
      && (strContains (toLower key) (lit "sound")
          || strContains (toLower key) (lit "wave"))) = true) := by
    simp [hw]
  have hbase : inferWidget key (.jstr s)
      = if ((lit "#").isPrefixOf s && (s.length == 4 || s.length == 7)) = true
        then Widget.colorPair else Widget.textField := by
    simp only [inferWidget]
    rw [if_neg hw']
  by_cases hc : ((lit "#").isPrefixOf s && (s.length == 4 || s.length == 7)) = true
  · rw [hbase, if_pos hc]
    exact ⟨⟨fun _ => hc, fun _ => rfl⟩, fun hfalse => absurd hc (by simp [hfalse])⟩
  · rw [hbase, if_neg hc]
    exact ⟨⟨fun h => absurd h (by decide), fun h => absurd h hc⟩, fun _ => rfl⟩

/-- Claim C9 witness: the spec's own example — key `colorPrimary` with value
`#1a2b3c` — is classified as the color-plus-text pair. -/
theorem C9_witness :
    inferWidget (lit "colorPrimary") (JVal.jstr (lit "#1a2b3c")) = Widget.colorPair :=
  ((C9_color_widget (lit "colorPrimary") (lit "#1a2b3c") (by decide)).1).mpr (by decide)

/-- Claim C10: every successful parse returns a non-empty controls list; when
the controls payload failed to parse as a JSON array or parsed to the empty
list, the single default descriptor is substituted in its place. -/
theorem C10_controls_default (oracle : Oracle) (text : Str)
    (r : GameGenerationResponse) (h : parseGameText oracle text = .ok r) :
    r.controls = extractControls oracle text
    ∧ r.controls ≠ []
    ∧ (extractControlsRaw oracle text = [] → r.controls = [defaultControl]) := by
  have hne : extractControls oracle text ≠ [] := by
    unfold extractControls
    split
    · simp
    next hraw => exact hraw
  have hctr : r.controls = extractControls oracle text := by
    unfold parseGameText at h
    split at h
    · split at h
      · injection h with h
        subst h
        rfl
      · exact absurd h (by simp)
    · injection h with h
      subst h
      rfl
  refine ⟨hctr, by rw [hctr]; exact hne, ?_⟩
  intro hraw
  rw [hctr]
  unfold extractControls
  rw [if_pos hraw]

/-- Claim C10 witness: a concrete successful parse on which the controls
payload is absent, so the returned list is the single default descriptor. -/
theorem C10_witness :
    ([defaultControl] : List GameControl) = extractControls oracleNone w10text
    ∧ ([defaultControl] : List GameControl) ≠ []
    ∧ (extractControlsRaw oracleNone w10text = [] →
        ([defaultControl] : List GameControl) = [defaultControl]) :=
  C10_controls_default oracleNone w10text ⟨w10html, [defaultControl]⟩ (by decide)

end DrGame
